import Mathlib

/-!
Verification of the usereport command-execution engine.

This file gives a shallow embedding, in Lean 4, of the parts of the
usereport-rs sources that the specification talks about: the `Command`
data model and its execution logic (src/command.rs), the thread-based
runner (src/runner.rs), the analysis orchestrator (src/analysis.rs) and
the configuration handling (src/config.rs).  Effectful interactions with
the operating system (spawning processes, waiting with a deadline,
reading a temporary file, thread scheduling) are modelled by explicit
environment records that record the outcome of each interaction; the
control flow of the Rust functions is translated faithfully over those
environments.  Machine integers (`u64`, `usize`) are modelled as `Nat`;
none of the embedded code exercises overflow.
-/

/-! ## Data model: src/command.rs -/

/-- Link attached to a command (src/command.rs, `struct Link`). -/
structure Link where
  name : String
  url  : String
deriving DecidableEq, Repr

/-- Command descriptor (src/command.rs, `struct Command`): `name`, optional
`title` and `description`, the command line `command`, the optional
`timeout_sec` (serde-renamed `timeout`) and optional `links`. -/
structure Command where
  name        : String
  title       : Option String
  description : Option String
  command     : String
  timeout_sec : Option Nat
  links       : Option (List Link)
deriving DecidableEq, Repr

namespace Command

/-- Constructor `Command::new` (src/command.rs lines 60-69): all optional
fields start out as `None`. -/
def new (name : String) (command : String) : Command :=
  { name := name, title := none, description := none, command := command,
    timeout_sec := none, links := none }

/-- Builder `Command::with_timeout` (src/command.rs lines 92-97), at the
instantiation `u64 -> Option<u64>` used by the config code: replaces only
the `timeout_sec` field. -/
def with_timeout (c : Command) (timeout_sec : Nat) : Command :=
  { c with timeout_sec := some timeout_sec }

end Command

/-- Execution result (src/command.rs, `enum CommandResult`): exactly four
variants; `run_time_ms` is a field of `Success`, `Failed` and `Timeout`
but not of `Error`. -/
inductive CommandResult where
  | Success (command : Command) (run_time_ms : Nat) (stdout : String)
  | Failed  (command : Command) (run_time_ms : Nat) (stdout : String)
  | Timeout (command : Command) (run_time_ms : Nat)
  | Error   (command : Command) (reason : String)
deriving DecidableEq, Repr

namespace CommandResult

/-- Run time carried by a result: present in every variant except `Error`
(src/command.rs lines 241-259). -/
def runTime : CommandResult → Option Nat
  | .Success _ t _ => some t
  | .Failed _ t _  => some t
  | .Timeout _ t   => some t
  | .Error _ _     => none

/-- Recognizer for the `Error` variant. -/
def isError : CommandResult → Bool
  | .Error _ _ => true
  | _          => false

end CommandResult

/-! ## Configuration: src/config.rs -/

/-- Defaults section (src/config.rs, `struct Defaults`). -/
structure Defaults where
  profile               : String
  timeout               : Nat
  repetitions           : Nat
  max_parallel_commands : Nat
deriving DecidableEq, Repr

/-- `impl Default for Defaults` (src/config.rs lines 181-190): profile
"default", timeout 5, repetitions 1, max_parallel_commands 64.  These are
also the serde fallback values used field by field when the corresponding
key is absent from the configuration file. -/
def Defaults.default : Defaults :=
  { profile := "default", timeout := 5, repetitions := 1, max_parallel_commands := 64 }

/-- Hostinfo section (src/config.rs, `struct Hostinfo`). -/
structure Hostinfo where
  commands : List String
deriving DecidableEq, Repr

/-- Profile section (src/config.rs, `struct Profile`). -/
structure Profile where
  name        : String
  commands    : List String
  description : Option String
deriving DecidableEq, Repr

/-- Configuration (src/config.rs, `struct Config`). -/
structure Config where
  defaults : Defaults
  hostinfo : Option Hostinfo
  profiles : List Profile
  commands : List Command
deriving DecidableEq, Repr

namespace Config

/-- `Config::commands_for_profile` (src/config.rs lines 84-90): keep the
globally configured commands whose name occurs in the profile's command
name list. -/
def commands_for_profile (cfg : Config) (profile : Profile) : List Command :=
  cfg.commands.filter (fun c => profile.commands.contains c.name)

/-- `Config::commands_for_hostinfo` (src/config.rs lines 72-82). -/
def commands_for_hostinfo (cfg : Config) : List Command :=
  match cfg.hostinfo with
  | some hostinfo => cfg.commands.filter (fun c => hostinfo.commands.contains c.name)
  | none => []

/-- `Config::populate_commands_timeout` (src/config.rs lines 142-166):
every command without a timeout gets `timeout`; all other fields and all
other parts of the configuration are rebuilt unchanged. -/
def populate_commands_timeout (cfg : Config) (timeout : Nat) : Config :=
  { cfg with
    commands := cfg.commands.map (fun x =>
      if x.timeout_sec.isNone then x.with_timeout timeout else x) }

/-- `Config::populate_defaults` (src/config.rs lines 137-140). -/
def populate_defaults (cfg : Config) : Config :=
  cfg.populate_commands_timeout cfg.defaults.timeout

/-- `Config::from_str` after TOML deserialization (src/config.rs lines
45-49): the deserialized configuration is post-processed by
`populate_defaults` and nothing else.  TOML parsing itself is I/O and is
represented by the already-parsed `Config` value. -/
def from_str_post (parsed : Config) : Config :=
  parsed.populate_defaults

end Config

/-- C9: For every Config and every profile in it, commands_for_profile
returns exactly the commands of the Config's global commands list whose
name occurs in the profile's command-name list, preserving the order of
the global commands list: the order in which names are written inside the
profile has no effect on the result's order. -/
theorem commands_for_profile_correct (cfg : Config) (p : Profile) :
    (cfg.commands_for_profile p).Sublist cfg.commands ∧
    (∀ c : Command, c ∈ cfg.commands_for_profile p ↔ c ∈ cfg.commands ∧ c.name ∈ p.commands) ∧
    (∀ q : Profile, q.commands.Perm p.commands →
      cfg.commands_for_profile q = cfg.commands_for_profile p) := by
  refine ⟨List.filter_sublist _, ?_, ?_⟩
  · intro c
    simp [Config.commands_for_profile, List.mem_filter, List.contains, List.elem_eq_mem]
  · intro q hperm
    unfold Config.commands_for_profile
    apply List.filter_congr
    intro c _
    have hmem : c.name ∈ q.commands ↔ c.name ∈ p.commands := hperm.mem_iff
    simp [List.contains, List.elem_eq_mem, hmem]

/-- Witness for `commands_for_profile_correct` at a concrete configuration
with two commands and a profile naming them in reversed order. -/
theorem commands_for_profile_correct_witness :
    let cmdA := Command.new "a" "/bin/true"
    let cmdB := Command.new "b" "/bin/false"
    let cfg : Config := { defaults := Defaults.default, hostinfo := none,
                          profiles := [], commands := [cmdA, cmdB] }
    let p : Profile := { name := "p", commands := ["b", "a"], description := none }
    let q : Profile := { name := "q", commands := ["a", "b"], description := none }
    cfg.commands_for_profile q = cfg.commands_for_profile p ∧
    cfg.commands_for_profile p = [cmdA, cmdB] := by
  intro cmdA cmdB cfg p q
  constructor
  · exact (commands_for_profile_correct cfg p).2.2 q (by decide)
  · decide

/-- C10: Parsing a configuration with Config::from_str modifies only the
timeout_sec field of commands that lack one, setting it to
defaults.timeout (which is 5 seconds when absent from the file); every
command that specifies its own timeout, and every other field of every
command and of the config, is returned unchanged. -/
theorem from_str_populates_only_missing_timeouts (cfg : Config) :
    (cfg.from_str_post).defaults = cfg.defaults ∧
    (cfg.from_str_post).hostinfo = cfg.hostinfo ∧
    (cfg.from_str_post).profiles = cfg.profiles ∧
    (cfg.from_str_post).commands.length = cfg.commands.length ∧
    (∀ i : Nat, (cfg.from_str_post).commands[i]? =
      (cfg.commands[i]?).map (fun c =>
        if c.timeout_sec = none then { c with timeout_sec := some cfg.defaults.timeout }
        else c)) ∧
    Defaults.default.timeout = 5 := by
  refine ⟨rfl, rfl, rfl, ?_, ?_, rfl⟩
  · simp [Config.from_str_post, Config.populate_defaults, Config.populate_commands_timeout]
  · intro i
    have hfun : (fun x : Command =>
        if x.timeout_sec.isNone then x.with_timeout cfg.defaults.timeout else x) =
        (fun c : Command =>
        if c.timeout_sec = none then { c with timeout_sec := some cfg.defaults.timeout }
        else c) := by
      funext c
      cases htc : c.timeout_sec <;> simp [Command.with_timeout, htc]
    simp only [Config.from_str_post, Config.populate_defaults,
      Config.populate_commands_timeout, List.getElem?_map]
    rw [hfun]

/-! ## Command-line tokenization: `Command::args` (src/command.rs line 211)

`Command::args` delegates to `shellwords::split` from the shellwords
crate, a port of Ruby Shellwords.  The split scans the input and
repeatedly matches, after optional whitespace, one of: a run of plain
characters, a single-quoted segment taken literally, a double-quoted
segment in which a backslash escapes the following character, or a
backslash escape; a piece followed by whitespace or the end of input
closes the current field, and an unterminated quote is a
MismatchedQuotes error.  The state machine below implements exactly that
scan; `none` models the error case. -/

/-- Single-quote character (code point 39). -/
def singleQuoteChar : Char := Char.ofNat 39

/-- Double-quote character (code point 34). -/
def doubleQuoteChar : Char := Char.ofNat 34

/-- Backslash character (code point 92). -/
def backslashChar : Char := Char.ofNat 92

/-- Scanner state of the shellwords split. -/
inductive SplitMode where
  | betweenWords
  | inWord
  | inSingle
  | inDouble
  | escaped
  | escapedDouble
deriving DecidableEq, Repr

/-- One-pass scanner for the shellwords split: `field` is the field being
accumulated, `acc` the completed fields. -/
def swRun : SplitMode → List Char → List Char → List String → Option (List String)
  | .betweenWords, [], _field, acc => some acc
  | .inWord, [], field, acc => some (acc ++ [String.mk field])
  | .escaped, [], field, acc => some (acc ++ [String.mk (field ++ [backslashChar])])
  | .inSingle, [], _field, _acc => none
  | .inDouble, [], _field, _acc => none
  | .escapedDouble, [], _field, _acc => none
  | .betweenWords, ch :: rest, _field, acc =>
      if ch.isWhitespace then swRun .betweenWords rest [] acc
      else if ch = singleQuoteChar then swRun .inSingle rest [] acc
      else if ch = doubleQuoteChar then swRun .inDouble rest [] acc
      else if ch = backslashChar then swRun .escaped rest [] acc
      else swRun .inWord rest [ch] acc
  | .inWord, ch :: rest, field, acc =>
      if ch.isWhitespace then swRun .betweenWords rest [] (acc ++ [String.mk field])
      else if ch = singleQuoteChar then swRun .inSingle rest field acc
      else if ch = doubleQuoteChar then swRun .inDouble rest field acc
      else if ch = backslashChar then swRun .escaped rest field acc
      else swRun .inWord rest (field ++ [ch]) acc
  | .inSingle, ch :: rest, field, acc =>
      if ch = singleQuoteChar then swRun .inWord rest field acc
      else swRun .inSingle rest (field ++ [ch]) acc
  | .inDouble, ch :: rest, field, acc =>
      if ch = doubleQuoteChar then swRun .inWord rest field acc
      else if ch = backslashChar then swRun .escapedDouble rest field acc
      else swRun .inDouble rest (field ++ [ch]) acc
  | .escaped, ch :: rest, field, acc => swRun .inWord rest (field ++ [ch]) acc
  | .escapedDouble, ch :: rest, field, acc => swRun .inDouble rest (field ++ [ch]) acc

/-- Entry point of the shellwords split (`shellwords::split`), as called
by `Command::args`; `none` is the MismatchedQuotes error. -/
def shellwordsSplit (s : String) : Option (List String) :=
  swRun .betweenWords s.data [] []

/-- `Command::args` (src/command.rs line 211): tokenize the command line. -/
def Command.args (c : Command) : Option (List String) :=
  shellwordsSplit c.command

/-- Command line of the quoting scenario: sh, blank, -c, blank, then a
single-quoted segment whose content is: dmesg -T, a pipe, grep, and a
double-quoted failed. -/
def quotingScenarioLine : String :=
  String.mk ("sh -c ".data ++ [singleQuoteChar] ++ "dmesg -T | grep ".data ++
    [doubleQuoteChar] ++ "failed".data ++ [doubleQuoteChar, singleQuoteChar])

/-- Expected third token of the quoting scenario: the content of the
single-quoted segment, double quotes kept. -/
def quotingScenarioThird : String :=
  String.mk ("dmesg -T | grep ".data ++ [doubleQuoteChar] ++ "failed".data ++
    [doubleQuoteChar])

/-- C8: Tokenizing the command line sh -c (single-quoted: dmesg -T, pipe,
grep, double-quoted failed) with Command::args yields exactly 3 argv
elements: a single- or double-quoted segment containing spaces becomes
one argument. -/
theorem args_quoting_scenario :
    (Command.new "dmesg" quotingScenarioLine).args =
      some ["sh", "-c", quotingScenarioThird] ∧
    ((Command.new "dmesg" quotingScenarioLine).args).map List.length = some 3 := by
  constructor <;> rfl

/-! ## Execution unit: `Command::exec` (src/command.rs lines 119-218)

The interactions of `exec` with the operating system are modelled by an
environment recording the outcome of each call: creating the temporary
capture file, spawning the child, waiting with a deadline (the outcome
may depend on the deadline passed, hence a function), measuring elapsed
milliseconds, seeking and reading the capture file, and killing and
reaping the child.  The control flow of `exec` over these outcomes is a
line-by-line translation of the source. -/

/-- Outcome of `p.wait_timeout(..)`: the child exited (with or without
success) before the deadline, the deadline expired (`Ok(None)`), or the
wait itself failed (`Err`). -/
inductive WaitOutcome where
  | exited (success : Bool)
  | timedOut
  | failed (msg : String)
deriving DecidableEq, Repr

/-- Environment of one `exec` call: the outcomes of its OS interactions. -/
structure ExecEnv where
  tmpfileOk  : Bool
  tmpfileErr : String
  spawnOk    : Bool
  spawnErr   : String
  wait       : Nat → WaitOutcome
  elapsedMs  : Nat
  seekOk     : Bool
  seekErr    : String
  readOk     : Bool
  readErr    : String
  stdout     : String
  killOk     : Bool
  reapOk     : Bool

/-- Either the `CommandResult` returned by `exec`, or a panic of the
calling thread with the message of the failing `expect`. -/
inductive ExecOutcome where
  | ret (result : CommandResult)
  | panicked (msg : String)
deriving DecidableEq, Repr

namespace ExecOutcome

/-- True when `exec` returned the `Success` variant. -/
def returnedSuccess : ExecOutcome → Bool
  | .ret (.Success ..) => true
  | _ => false

/-- True when `exec` returned the `Failed` variant. -/
def returnedFailed : ExecOutcome → Bool
  | .ret (.Failed ..) => true
  | _ => false

/-- True when `exec` returned the `Timeout` variant. -/
def returnedTimeout : ExecOutcome → Bool
  | .ret (.Timeout ..) => true
  | _ => false

/-- True when `exec` returned the `Error` variant. -/
def returnedError : ExecOutcome → Bool
  | .ret (.Error ..) => true
  | _ => false

/-- True when `exec` panicked instead of returning. -/
def didPanic : ExecOutcome → Bool
  | .panicked _ => true
  | _ => false

end ExecOutcome

namespace Command

/-- Deadline passed to `p.wait_timeout` (src/command.rs line 142):
`Duration::new(self.timeout_sec.unwrap_or(1), 0)`, in seconds. -/
def waitDeadlineSec (c : Command) : Nat :=
  c.timeout_sec.getD 1

/-- `Command::fail` (src/command.rs lines 204-209): build the `Error`
variant from a reason. -/
def fail (c : Command) (reason : String) : CommandResult :=
  CommandResult.Error c reason

/-- `Command::terminate` (src/command.rs lines 214-218): kill the child,
then reap it, each through `expect`; `some msg` is a panic of the calling
thread with that message, `none` is normal completion. -/
def terminate (_self : Command) (env : ExecEnv) : Option String :=
  if !env.killOk then some "failed to kill command"
  else if !env.reapOk then some "failed to wait for command to finish"
  else none

/-- `Command::exec` (src/command.rs lines 119-201): split the command
line, create the capture file, spawn the child, wait with the deadline,
take the elapsed time, rewind the capture file, then classify the wait
outcome, reading captured output on ordinary exits and terminating the
child on a timeout or a failed wait. -/
def exec (c : Command) (env : ExecEnv) : ExecOutcome :=
  match c.args with
  | none => .ret (c.fail "failed to split command into arguments")
  | some _args =>
    if !env.tmpfileOk then .ret (c.fail env.tmpfileErr)
    else if !env.spawnOk then .ret (c.fail env.spawnErr)
    else
      let wait := env.wait c.waitDeadlineSec
      let run_time_ms := env.elapsedMs
      if !env.seekOk then .ret (c.fail env.seekErr)
      else
        match wait with
        | .exited true =>
            if !env.readOk then .ret (c.fail env.readErr)
            else .ret (.Success c run_time_ms env.stdout)
        | .exited false =>
            if !env.readOk then .ret (c.fail env.readErr)
            else .ret (.Failed c run_time_ms env.stdout)
        | .timedOut =>
            match c.terminate env with
            | some msg => .panicked msg
            | none => .ret (.Timeout c run_time_ms)
        | .failed msg =>
            match c.terminate env with
            | some pmsg => .panicked pmsg
            | none => .ret (.Error c msg)

end Command

/-- Environment in which every OS interaction succeeds and the child
exits with the given success flag after the deadline check. -/
def happyEnv (success : Bool) : ExecEnv :=
  { tmpfileOk := true, tmpfileErr := "tmpfile failure"
    spawnOk := true, spawnErr := "spawn failure"
    wait := fun _ => .exited success, elapsedMs := 42
    seekOk := true, seekErr := "seek failure"
    readOk := true, readErr := "read failure"
    stdout := "out", killOk := true, reapOk := true }

example :
    Command.exec (Command.new "true" "/bin/true") (happyEnv true) =
      .ret (.Success (Command.new "true" "/bin/true") 42 "out") := by rfl

example :
    Command.exec (Command.new "false" "/bin/false") (happyEnv false) =
      .ret (.Failed (Command.new "false" "/bin/false") 42 "out") := by rfl

example :
    Command.exec (Command.new "sleep" "/bin/sleep 5")
      { happyEnv true with wait := fun _ => .timedOut } =
      .ret (.Timeout (Command.new "sleep" "/bin/sleep 5") 42) := by rfl

/-- Command used in the counterexamples below. -/
def sleepCmd : Command := Command.new "sleep" "/bin/sleep 5"

/-- Environment of a stuck (timed-out) child whose kill fails. -/
def stuckKillEnv : ExecEnv :=
  { happyEnv true with wait := fun _ => .timedOut, killOk := false }

/-- C3 counterexample: when the kill of a stuck (timed-out) child fails,
Command::exec does not return the Error variant; it panics the calling
thread through the expect in Command::terminate (src/command.rs lines
213-218, doc comment Panics; exec itself is documented may panic). -/
theorem exec_kill_failure_panics :
    Command.exec sleepCmd stuckKillEnv = .panicked "failed to kill command" ∧
    (Command.exec sleepCmd stuckKillEnv).returnedError = false ∧
    (Command.exec sleepCmd stuckKillEnv).didPanic = true :=
  ⟨rfl, rfl, rfl⟩

/-- C3 amended: a failure to spawn the child, or to seek or read the
capture sink, is reported as the Error variant carrying the underlying
cause's message without panicking; but a failure to kill or to reap a
stuck (timed-out) process panics the calling thread with the expect
message of Command::terminate. -/
theorem exec_io_failure_reporting (c : Command) (env : ExecEnv)
    (hargs : (Command.args c).isSome = true) :
    (env.tmpfileOk = false →
      Command.exec c env = .ret (CommandResult.Error c env.tmpfileErr)) ∧
    (env.tmpfileOk = true → env.spawnOk = false →
      Command.exec c env = .ret (CommandResult.Error c env.spawnErr)) ∧
    (env.tmpfileOk = true → env.spawnOk = true → env.seekOk = false →
      Command.exec c env = .ret (CommandResult.Error c env.seekErr)) ∧
    (∀ b : Bool, env.tmpfileOk = true → env.spawnOk = true → env.seekOk = true →
      env.wait c.waitDeadlineSec = .exited b → env.readOk = false →
      Command.exec c env = .ret (CommandResult.Error c env.readErr)) ∧
    (env.tmpfileOk = true → env.spawnOk = true → env.seekOk = true →
      env.wait c.waitDeadlineSec = .timedOut → env.killOk = false →
      Command.exec c env = .panicked "failed to kill command") ∧
    (env.tmpfileOk = true → env.spawnOk = true → env.seekOk = true →
      env.wait c.waitDeadlineSec = .timedOut → env.killOk = true → env.reapOk = false →
      Command.exec c env = .panicked "failed to wait for command to finish") := by
  obtain ⟨args0, hargs0⟩ : ∃ a, Command.args c = some a := Option.isSome_iff_exists.mp hargs
  refine ⟨?_, ?_, ?_, ?_, ?_, ?_⟩
  · intro h1
    simp [Command.exec, hargs0, Command.fail, h1]
  · intro h1 h2
    simp [Command.exec, hargs0, Command.fail, h1, h2]
  · intro h1 h2 h3
    simp [Command.exec, hargs0, Command.fail, h1, h2, h3]
  · intro b h1 h2 h3 hw h4
    cases b <;> simp [Command.exec, hargs0, Command.fail, h1, h2, h3, hw, h4]
  · intro h1 h2 h3 hw h4
    simp [Command.exec, hargs0, Command.fail, Command.terminate, h1, h2, h3, hw, h4]
  · intro h1 h2 h3 hw h4 h5
    simp [Command.exec, hargs0, Command.fail, Command.terminate, h1, h2, h3, hw, h4, h5]

/-- Witness for `exec_io_failure_reporting`: a failed spawn yields the
Error variant with the spawn failure message. -/
theorem exec_io_failure_reporting_witness :
    Command.exec sleepCmd { happyEnv true with spawnOk := false } =
      .ret (CommandResult.Error sleepCmd "spawn failure") := by
  have h := (exec_io_failure_reporting sleepCmd { happyEnv true with spawnOk := false }
    (by rfl)).2.1
  exact h rfl rfl

/-- Command used in the C4 counterexample. -/
def trueCmd : Command := Command.new "true" "/bin/true"

/-- Environment of a child that exits with status 0 before the deadline
but whose capture file cannot be read back. -/
def exitReadFailEnv : ExecEnv := { happyEnv true with readOk := false }

/-- C4 counterexample: the child exits with status 0 before the timeout,
yet Command::exec returns the Error variant, not Success, because reading
the capture sink fails (src/command.rs lines 157-161). -/
theorem exec_success_exit_read_failure :
    exitReadFailEnv.wait trueCmd.waitDeadlineSec = .exited true ∧
    Command.exec trueCmd exitReadFailEnv = .ret (CommandResult.Error trueCmd "read failure") ∧
    (Command.exec trueCmd exitReadFailEnv).returnedSuccess = false :=
  ⟨rfl, rfl, rfl⟩

set_option maxHeartbeats 2000000 in
/-- C4 amended: every call of Command::exec either returns exactly one
CommandResult variant or panics: Success with captured stdout when the
child exits with status 0 before the timeout and the capture sink can be
seeked and read, Failed likewise for a non-zero exit, Timeout when the
child does not exit before the deadline and the kill and reap succeed, a
panic when they do not, and Error in every remaining case (spawn,
tempfile, seek or read failure, or a failed wait); run_time_ms carries
the measured elapsed time in every returned variant except Error. -/
theorem exec_variant_classification (c : Command) (env : ExecEnv)
    (hargs : (Command.args c).isSome = true) :
    ((Command.exec c env).returnedSuccess = true ↔
      env.tmpfileOk = true ∧ env.spawnOk = true ∧ env.seekOk = true ∧
      env.wait c.waitDeadlineSec = .exited true ∧ env.readOk = true) ∧
    ((Command.exec c env).returnedFailed = true ↔
      env.tmpfileOk = true ∧ env.spawnOk = true ∧ env.seekOk = true ∧
      env.wait c.waitDeadlineSec = .exited false ∧ env.readOk = true) ∧
    ((Command.exec c env).returnedTimeout = true ↔
      env.tmpfileOk = true ∧ env.spawnOk = true ∧ env.seekOk = true ∧
      env.wait c.waitDeadlineSec = .timedOut ∧ env.killOk = true ∧ env.reapOk = true) ∧
    ((Command.exec c env).didPanic = true ↔
      env.tmpfileOk = true ∧ env.spawnOk = true ∧ env.seekOk = true ∧
      (env.wait c.waitDeadlineSec = .timedOut ∨
        ∃ m, env.wait c.waitDeadlineSec = .failed m) ∧
      (env.killOk = false ∨ (env.killOk = true ∧ env.reapOk = false))) ∧
    (∀ r : CommandResult, Command.exec c env = .ret r →
      r.runTime = if r.isError then none else some env.elapsedMs) := by
  obtain ⟨args0, hargs0⟩ : ∃ a, Command.args c = some a := Option.isSome_iff_exists.mp hargs
  cases htm : env.tmpfileOk <;>
    cases hsp : env.spawnOk <;>
      cases hsk : env.seekOk <;>
        cases hrd : env.readOk <;>
          cases hk : env.killOk <;>
            cases hrp : env.reapOk <;>
              cases hw : env.wait c.waitDeadlineSec <;>
  simp_all [Command.exec, Command.fail, Command.terminate,
    ExecOutcome.returnedSuccess, ExecOutcome.returnedFailed,
    ExecOutcome.returnedTimeout, ExecOutcome.didPanic,
    CommandResult.runTime, CommandResult.isError]
  all_goals rename_i sflag
  all_goals cases sflag <;>
    simp_all [ExecOutcome.returnedSuccess, ExecOutcome.returnedFailed,
      ExecOutcome.returnedTimeout, ExecOutcome.didPanic,
      CommandResult.runTime, CommandResult.isError]

/-- Witness for `exec_variant_classification`: in the all-succeeding
environment with exit status 0 the call is classified Success. -/
theorem exec_variant_classification_witness :
    (Command.exec trueCmd (happyEnv true)).returnedSuccess = true ∧
    CommandResult.runTime (CommandResult.Success trueCmd 42 "out") = some (happyEnv true).elapsedMs := by
  constructor
  · exact (exec_variant_classification trueCmd (happyEnv true) (by rfl)).1.mpr
      ⟨rfl, rfl, rfl, rfl, rfl⟩
  · exact (exec_variant_classification trueCmd (happyEnv true) (by rfl)).2.2.2.2
      (CommandResult.Success trueCmd 42 "out") rfl

/-- C6: For every command whose timeout_sec is unset at the moment exec is
called, Command::exec waits on the child process with a deadline of
exactly 1 second (the hard default); when timeout_sec is set, the
deadline equals that many seconds.  The first conjunct shows exec
consults the wait outcome only at `waitDeadlineSec` seconds. -/
theorem exec_wait_deadline (c : Command) (env : ExecEnv) :
    Command.exec c env =
      Command.exec c { env with wait := fun _ => env.wait c.waitDeadlineSec } ∧
    (c.timeout_sec = none → c.waitDeadlineSec = 1) ∧
    (∀ t : Nat, c.timeout_sec = some t → c.waitDeadlineSec = t) := by
  refine ⟨rfl, ?_, ?_⟩
  · intro h
    simp [Command.waitDeadlineSec, h]
  · intro t h
    simp [Command.waitDeadlineSec, h]

/-- Witness for `exec_wait_deadline`: a command built without a timeout
waits 1 second; with_timeout 7 waits 7 seconds. -/
theorem exec_wait_deadline_witness :
    Command.waitDeadlineSec (Command.new "uname" "/usr/bin/uname -a") = 1 ∧
    Command.waitDeadlineSec ((Command.new "sleep" "/bin/sleep 10").with_timeout 7) = 7 := by
  constructor
  · exact (exec_wait_deadline (Command.new "uname" "/usr/bin/uname -a") (happyEnv true)).2.1 rfl
  · exact (exec_wait_deadline ((Command.new "sleep" "/bin/sleep 10").with_timeout 7)
      (happyEnv true)).2.2 7 rfl

/-! ## Thread runner: src/runner.rs

`ThreadRunner::run` (lines 62-69) first calls `create_children` (lines
75-91), which loops over the commands spawning one thread per command on
a shared mpsc channel and aborts with `Error::CommandFailed` at the
first thread-spawn failure; it then calls `wait_for_results` (lines
114-135), which receives exactly `children.len()` messages from the
channel, in arrival order, and only then joins the children.  Each
spawned child (lines 93-112) runs `Command::exec` and sends that result
on the channel, so the messages arrive in the order in which the
executions complete.  The environment below records the per-command
thread-spawn outcomes, the per-command execution results, and the
completion order in which the children send. -/

/-- Runner error (src/runner.rs lines 17-23): its only variant is
`CommandFailed`, produced when spawning a worker thread fails. -/
inductive RunnerError where
  | CommandFailed (name : String) (msg : String)
deriving DecidableEq, Repr

/-- Environment of one `ThreadRunner::run` call: `spawnOk i` is whether
spawning the thread of the i-th command succeeds, `exec i` the
`CommandResult` the i-th command's execution produces, and `completion`
the order (by input index) in which the children send their results over
the channel. -/
structure RunnerEnv where
  spawnOk    : Nat → Bool
  exec       : Nat → CommandResult
  completion : List Nat

/-- `ThreadRunner::create_children` (src/runner.rs lines 75-91): spawn a
thread per command, stopping with `CommandFailed` at the first spawn
failure; `i` is the index of the first command of the remaining list. -/
def create_children : List Command → Nat → (Nat → Bool) → Except RunnerError Unit
  | [], _, _ => .ok ()
  | c :: cs, i, spawnOk =>
      if spawnOk i then create_children cs (i + 1) spawnOk
      else .error (.CommandFailed c.name "failed to spawn thread")

/-- `ThreadRunner::wait_for_results` (src/runner.rs lines 114-135):
receive one message per child from the channel and push it, in arrival
order; the messages are the execution results in completion order. -/
def wait_for_results (env : RunnerEnv) : List CommandResult :=
  env.completion.map env.exec

/-- `ThreadRunner::run` (src/runner.rs lines 62-69): create the children,
then collect the results. -/
def ThreadRunner.run (commands : List Command) (env : RunnerEnv) :
    Except RunnerError (List CommandResult) :=
  match create_children commands 0 env.spawnOk with
  | .error e => .error e
  | .ok () => .ok (wait_for_results env)

/-- Command used in the runner counterexample. -/
def falseCmd : Command := Command.new "false" "/bin/false"

/-- Runner environment in which both spawns succeed and command 1
finishes (sends) before command 0. -/
def swapEnv : RunnerEnv :=
  { spawnOk := fun _ => true
    exec := fun i => if i = 0 then .Success trueCmd 1 "a" else .Failed falseCmd 2 "b"
    completion := [1, 0] }

/-- C1 counterexample: with two commands and a legitimate completion
order in which the second command finishes first, the 0-th element of the
returned list is the second command's result, not the first command's:
the output order follows completion order, not input order
(src/runner.rs lines 114-125 push results in channel-arrival order and
never sort by input index). -/
theorem run_order_counterexample :
    swapEnv.completion.Perm (List.range [trueCmd, falseCmd].length) ∧
    ThreadRunner.run [trueCmd, falseCmd] swapEnv =
      .ok [swapEnv.exec 1, swapEnv.exec 0] ∧
    ¬ ThreadRunner.run [trueCmd, falseCmd] swapEnv =
      .ok [swapEnv.exec 0, swapEnv.exec 1] := by
  refine ⟨by decide, rfl, ?_⟩
  intro h
  have h1 : ThreadRunner.run [trueCmd, falseCmd] swapEnv =
      .ok [swapEnv.exec 1, swapEnv.exec 0] := rfl
  rw [h1] at h
  simp [swapEnv] at h

/-- Helper: when every spawn of the remaining commands succeeds,
`create_children` succeeds. -/
theorem create_children_ok (commands : List Command) :
    ∀ (i : Nat) (spawnOk : Nat → Bool),
    (∀ j, j < commands.length → spawnOk (i + j) = true) →
    create_children commands i spawnOk = .ok () := by
  induction commands with
  | nil => intro i spawnOk _; rfl
  | cons c cs ih =>
    intro i spawnOk h
    have h0 : spawnOk i = true := by
      have := h 0 (Nat.succ_pos cs.length)
      simpa using this
    simp only [create_children, h0, if_true]
    exact ih (i + 1) spawnOk (fun j hj => by
      have := h (j + 1) (Nat.succ_lt_succ hj)
      simpa [Nat.add_assoc, Nat.add_comm 1 j] using this)

/-- C1 amended: when every worker thread spawns, the list returned by the
runner's run operation is the executed commands' results ordered by
completion: its j-th element is the result of the command that finished
j-th.  The list is a permutation of the results in input order, and it
equals the input-order list exactly when the executions complete in
input order; the i-th element matches the i-th input command's result in
general only up to that permutation. -/
theorem run_results_follow_completion_order (commands : List Command) (env : RunnerEnv)
    (hspawn : ∀ i, i < commands.length → env.spawnOk i = true)
    (hperm : env.completion.Perm (List.range commands.length)) :
    ThreadRunner.run commands env = .ok (env.completion.map env.exec) ∧
    (env.completion.map env.exec).Perm ((List.range commands.length).map env.exec) ∧
    (env.completion = List.range commands.length →
      ThreadRunner.run commands env = .ok ((List.range commands.length).map env.exec)) := by
  have hok : create_children commands 0 env.spawnOk = .ok () :=
    create_children_ok commands 0 env.spawnOk (fun j hj => by simpa using hspawn j hj)
  refine ⟨?_, hperm.map env.exec, ?_⟩
  · simp [ThreadRunner.run, hok, wait_for_results]
  · intro hc
    simp [ThreadRunner.run, hok, wait_for_results, hc]

/-- Witness for `run_results_follow_completion_order` at the concrete
swapped-completion environment. -/
theorem run_results_follow_completion_order_witness :
    ThreadRunner.run [trueCmd, falseCmd] swapEnv =
      .ok (swapEnv.completion.map swapEnv.exec) ∧
    (swapEnv.completion.map swapEnv.exec).Perm
      ((List.range [trueCmd, falseCmd].length).map swapEnv.exec) := by
  have h := run_results_follow_completion_order [trueCmd, falseCmd] swapEnv
    (fun i _ => rfl) (by decide)
  exact ⟨h.1, h.2.1⟩

/-- Helper: `create_children` succeeds exactly when every remaining
thread spawn succeeds. -/
theorem create_children_ok_iff (commands : List Command) :
    ∀ (i : Nat) (spawnOk : Nat → Bool),
    create_children commands i spawnOk = .ok () ↔
      (∀ j, j < commands.length → spawnOk (i + j) = true) := by
  induction commands with
  | nil => intro i s; simp [create_children]
  | cons c cs ih =>
    intro i s
    by_cases h0 : s i = true
    · simp only [create_children, h0, if_true]
      rw [ih (i + 1) s]
      constructor
      · intro hall j hj
        cases j with
        | zero => simpa using h0
        | succ m =>
          have := hall m (Nat.lt_of_succ_lt_succ hj)
          simpa [Nat.add_assoc, Nat.add_comm 1 m] using this
      · intro hall j hj
        have := hall (j + 1) (Nat.succ_lt_succ hj)
        simpa [Nat.add_assoc, Nat.add_comm 1 j] using this
    · have h0f : s i = false := by revert h0; cases s i <;> simp
      simp only [create_children, h0f, Bool.false_eq_true, if_false]
      constructor
      · intro h; cases h
      · intro hall
        have := hall 0 (Nat.succ_pos cs.length)
        rw [Nat.add_zero, h0f] at this
        cases this

/-- C5: For every command list, the runner's run operation returns an Err
only when it cannot spawn a worker thread; a command that fails, times
out, or errors is recorded as its CommandResult variant inside the
returned Ok list, never causes run to return Err, and never prevents the
sibling commands of the batch from completing and appearing in the
result list.  The last conjunct makes the independence explicit: whether
run errs does not depend on the execution outcomes at all. -/
theorem run_err_only_on_spawn_failure (commands : List Command) (env : RunnerEnv)
    (hperm : env.completion.Perm (List.range commands.length)) :
    ((∃ results, ThreadRunner.run commands env = .ok results) ↔
      (∀ i, i < commands.length → env.spawnOk i = true)) ∧
    (∀ results, ThreadRunner.run commands env = .ok results →
      results.length = commands.length ∧
      ∀ i, i < commands.length → env.exec i ∈ results) ∧
    (∀ (f : Nat → CommandResult) (comp : List Nat) (e : RunnerError),
      ThreadRunner.run commands { env with exec := f, completion := comp } = .error e ↔
      ThreadRunner.run commands env = .error e) := by
  refine ⟨?_, ?_, ?_⟩
  · constructor
    · rintro ⟨results, hr⟩
      intro i hi
      cases hcc : create_children commands 0 env.spawnOk with
      | error e => simp [ThreadRunner.run, hcc] at hr
      | ok u =>
        cases u
        have := (create_children_ok_iff commands 0 env.spawnOk).mp hcc i hi
        simpa using this
    · intro hall
      have hok : create_children commands 0 env.spawnOk = .ok () :=
        (create_children_ok_iff commands 0 env.spawnOk).mpr
          (fun j hj => by simpa using hall j hj)
      exact ⟨wait_for_results env, by simp [ThreadRunner.run, hok]⟩
  · intro results hr
    cases hcc : create_children commands 0 env.spawnOk with
    | error e => simp [ThreadRunner.run, hcc] at hr
    | ok u =>
      cases u
      simp only [ThreadRunner.run, hcc] at hr
      have hres : results = env.completion.map env.exec := by
        simpa [wait_for_results] using hr.symm
      subst hres
      constructor
      · rw [List.length_map, hperm.length_eq, List.length_range]
      · intro i hi
        have hmem : i ∈ env.completion :=
          hperm.mem_iff.mpr (List.mem_range.mpr hi)
        exact List.mem_map_of_mem env.exec hmem
  · intro f comp e
    cases hcc : create_children commands 0 env.spawnOk with
    | error e0 => simp [ThreadRunner.run, hcc]
    | ok u => cases u; simp [ThreadRunner.run, hcc, wait_for_results]

/-- Witness for `run_err_only_on_spawn_failure` at the concrete
swapped-completion environment: the run is Ok, and the first command's
result appears in the returned list even though its sibling failed. -/
theorem run_err_only_on_spawn_failure_witness :
    (∃ results, ThreadRunner.run [trueCmd, falseCmd] swapEnv = .ok results) ∧
    swapEnv.exec 0 ∈ [swapEnv.exec 1, swapEnv.exec 0] := by
  have h := run_err_only_on_spawn_failure [trueCmd, falseCmd] swapEnv (by decide)
  refine ⟨h.1.mpr (fun i _ => rfl), ?_⟩
  exact (h.2.1 [swapEnv.exec 1, swapEnv.exec 0] rfl).2 0 (by decide)

/-! ## Temporal model of the runner

`create_children` spawns every child in a single loop (src/runner.rs
lines 85-88) and nothing in that loop waits for any result; the parent
receives results only in `wait_for_results`, called after
`create_children` has returned (lines 62-69), and receiving does not
stop a child from running anyway — children end on their own.  The
possible interleavings are therefore: the parent may spawn its next
child at any time, and any already-spawned, unfinished child may finish
at any time.  `runningCount` is the number of children spawned whose
execution has not yet produced a result. -/

/-- Snapshot of one run: how many children the parent loop has spawned so
far, and which child indices have already produced their result. -/
structure RunnerState where
  spawned  : Nat
  finished : List Nat
deriving DecidableEq, Repr

/-- One possible step of the runner over `n` commands: the parent spawns
its next child (the loop of src/runner.rs lines 85-88 never blocks
between spawns), or any spawned, unfinished child completes its
execution. -/
inductive RunnerStep (n : Nat) : RunnerState → RunnerState → Prop where
  | spawn (s : RunnerState) : s.spawned < n →
      RunnerStep n s { s with spawned := s.spawned + 1 }
  | finish (s : RunnerState) (i : Nat) : i < s.spawned → ¬ i ∈ s.finished →
      RunnerStep n s { s with finished := i :: s.finished }

/-- Initial state of a run: nothing spawned, nothing finished. -/
def runnerInit : RunnerState := { spawned := 0, finished := [] }

/-- States a run over `n` commands can reach. -/
def RunnerReachable (n : Nat) (s : RunnerState) : Prop :=
  Relation.ReflTransGen (RunnerStep n) runnerInit s

/-- Number of commands executing simultaneously in a state. -/
def runningCount (s : RunnerState) : Nat :=
  s.spawned - s.finished.length

/-- C2 counterexample: with 2 commands and maxParallel 1 the runner can
reach a state in which both commands execute simultaneously, because
`ThreadRunner` takes no concurrency limit and spawns every thread before
consuming any result; the claimed ceiling maxParallel is exceeded. -/
theorem runner_exceeds_max_parallel :
    RunnerReachable 2 { spawned := 2, finished := [] } ∧
    runningCount { spawned := 2, finished := [] } = 2 ∧
    ¬ runningCount { spawned := 2, finished := [] } ≤ 1 := by
  refine ⟨?_, rfl, by decide⟩
  have s1 : RunnerStep 2 runnerInit { spawned := 1, finished := [] } := by
    have h := RunnerStep.spawn (n := 2) runnerInit (by decide)
    simpa [runnerInit] using h
  have s2 : RunnerStep 2 { spawned := 1, finished := [] } { spawned := 2, finished := [] } := by
    have h := RunnerStep.spawn (n := 2) { spawned := 1, finished := [] } (by decide)
    simpa using h
  exact Relation.ReflTransGen.tail (Relation.ReflTransGen.single s1) s2

/-- C2 amended: the ThreadRunner applies no admission control: its run
operation takes no concurrency limit, every command of the list is
spawned before any result is consumed, so a state in which all N
commands execute simultaneously is reachable; the only ceiling on the
number of simultaneously executing commands is N itself. -/
theorem runner_concurrency_reaches_all (n : Nat) :
    RunnerReachable n { spawned := n, finished := [] } ∧
    runningCount { spawned := n, finished := [] } = n ∧
    (∀ s : RunnerState, RunnerReachable n s → runningCount s ≤ n) := by
  have reach : ∀ k, k ≤ n → RunnerReachable n { spawned := k, finished := [] } := by
    intro k
    induction k with
    | zero => intro _; exact Relation.ReflTransGen.refl
    | succ m ih =>
      intro hk
      refine Relation.ReflTransGen.tail (ih (Nat.le_of_succ_le hk)) ?_
      have h := RunnerStep.spawn (n := n) { spawned := m, finished := [] }
        (Nat.lt_of_succ_le hk)
      simpa using h
  have hsp : ∀ s, RunnerReachable n s → s.spawned ≤ n := by
    intro s h
    induction h with
    | refl => exact Nat.zero_le n
    | tail _ step ih =>
      cases step with
      | spawn hlt => simpa using Nat.succ_le_of_lt hlt
      | finish i hi hnf => simpa using ih
  refine ⟨reach n (Nat.le_refl n), by simp [runningCount], ?_⟩
  intro s h
  exact Nat.le_trans (Nat.sub_le _ _) (hsp s h)

/-- Witness for `runner_concurrency_reaches_all` at n = 3: the state with
all three commands running is reachable and its running count is 3. -/
theorem runner_concurrency_reaches_all_witness :
    runningCount { spawned := 3, finished := [] } = 3 ∧
    runningCount { spawned := 3, finished := [] } ≤ 3 := by
  have h := runner_concurrency_reaches_all 3
  exact ⟨h.2.1, h.2.2 { spawned := 3, finished := [] } h.1⟩

/-! ## Analysis orchestrator: src/analysis.rs

`Analysis::run` (lines 54-65) invokes the runner once over the hostinfo
commands, then `run_commands_rep` (lines 67-75) invokes it once per
repetition over the main commands, pushing each result list to the end
of the accumulated vector.  The runner the orchestrator holds is a trait
object; here it is an oracle `F` mapping the global invocation counter
(0 for the hostinfo batch, k+1 for main repetition k — the Rust calls
happen strictly in that order), the command list, and
max_parallel_commands to the runner outcome. -/

/-- Analysis error (src/analysis.rs lines 10-19). -/
inductive AnalysisError where
  | InitContextFailed (msg : String)
  | RunAnalysisFailed (err : RunnerError)
deriving DecidableEq, Repr

/-- Run context (src/analysis.rs, `struct Context`): hostname, host
identity string, timestamp, and caller-supplied key/value pairs. -/
structure Context where
  hostname  : String
  uname     : String
  date_time : Nat
  more      : List (String × String)
deriving DecidableEq, Repr

/-- Analysis report (src/analysis.rs, `struct AnalysisReport`). -/
structure AnalysisReport where
  context               : Context
  hostinfo_results      : List CommandResult
  command_results       : List (List CommandResult)
  repetitions           : Nat
  max_parallel_commands : Nat
deriving DecidableEq, Repr

/-- Analysis configuration (src/analysis.rs, `struct Analysis`, minus the
boxed runner, which is passed as the oracle `F` of each run). -/
structure Analysis where
  hostinfos             : List Command
  commands              : List Command
  repetitions           : Nat
  max_parallel_commands : Nat
deriving Repr

/-- Oracle of a runner trait object: invocation counter, commands and
max_parallel_commands to the outcome of that invocation. -/
def RunnerOracle : Type :=
  Nat → List Command → Nat → Except RunnerError (List CommandResult)

namespace Analysis

/-- `Analysis::run_commands` (src/analysis.rs lines 77-84): one runner
invocation, its error wrapped in RunAnalysisFailed; `k` is the global
invocation counter of this call. -/
def run_commands (a : Analysis) (F : RunnerOracle) (k : Nat) (commands : List Command) :
    Except AnalysisError (List CommandResult) :=
  match F k commands a.max_parallel_commands with
  | .error e => .error (.RunAnalysisFailed e)
  | .ok r => .ok r

/-- `Analysis::run_commands_rep` (src/analysis.rs lines 67-75): run the
runner once per repetition, pushing each result list to the end. -/
def run_commands_rep (a : Analysis) (F : RunnerOracle) (k : Nat) (commands : List Command) :
    Nat → Except AnalysisError (List (List CommandResult))
  | 0 => .ok []
  | n + 1 =>
    match a.run_commands F k commands with
    | .error e => .error e
    | .ok r =>
      match a.run_commands_rep F (k + 1) commands n with
      | .error e => .error e
      | .ok rest => .ok (r :: rest)

/-- `Analysis::run` (src/analysis.rs lines 54-65): hostinfo batch first,
then the repeated main batch, then assemble the report. -/
def run (a : Analysis) (F : RunnerOracle) (context : Context) :
    Except AnalysisError AnalysisReport :=
  match a.run_commands F 0 a.hostinfos with
  | .error e => .error e
  | .ok hostinfo_results =>
    match a.run_commands_rep F 1 a.commands a.repetitions with
    | .error e => .error e
    | .ok command_results =>
      .ok { context := context
            hostinfo_results := hostinfo_results
            command_results := command_results
            repetitions := a.repetitions
            max_parallel_commands := a.max_parallel_commands }

end Analysis

/-- Helper: when every remaining invocation succeeds, `run_commands_rep`
collects the invocation outputs in invocation order. -/
theorem run_commands_rep_ok (a : Analysis) (F : RunnerOracle) (commands : List Command) :
    ∀ (n k : Nat) (G : Nat → List CommandResult),
    (∀ j, j < n → F (k + j) commands a.max_parallel_commands = .ok (G j)) →
    a.run_commands_rep F k commands n = .ok ((List.range n).map G) := by
  intro n
  induction n with
  | zero => intro k G _; rfl
  | succ m ih =>
    intro k G hG
    have h0 : F k commands a.max_parallel_commands = .ok (G 0) := by
      have := hG 0 (Nat.succ_pos m)
      simpa using this
    have hrest : a.run_commands_rep F (k + 1) commands m =
        .ok ((List.range m).map (fun j => G (j + 1))) :=
      ih (k + 1) (fun j => G (j + 1)) (fun j hj => by
        have := hG (j + 1) (Nat.succ_lt_succ hj)
        simpa [Nat.add_assoc, Nat.add_comm 1 j] using this)
    simp only [Analysis.run_commands_rep, Analysis.run_commands, h0, hrest]
    congr 1
    rw [List.range_succ_eq_map, List.map_cons, List.map_map]
    rfl

/-- C7: For every repetitions >= 1, Analysis::run invokes the runner once
over the hostinfo commands and then exactly repetitions times over the
main commands, and the resulting AnalysisReport.command_results contains
exactly repetitions inner result lists appended in invocation order
(repetition 0 first, repetition n-1 last), with no reordering across
repetitions. -/
theorem analysis_run_repetition_order (a : Analysis) (F : RunnerOracle) (context : Context)
    (H : List CommandResult) (G : Nat → List CommandResult)
    (hH : F 0 a.hostinfos a.max_parallel_commands = .ok H)
    (hG : ∀ k, k < a.repetitions →
      F (k + 1) a.commands a.max_parallel_commands = .ok (G k)) :
    Analysis.run a F context = .ok
      { context := context
        hostinfo_results := H
        command_results := (List.range a.repetitions).map G
        repetitions := a.repetitions
        max_parallel_commands := a.max_parallel_commands } ∧
    ((List.range a.repetitions).map G).length = a.repetitions ∧
    (∀ i, i < a.repetitions → ((List.range a.repetitions).map G)[i]? = some (G i)) := by
  have hrep : a.run_commands_rep F 1 a.commands a.repetitions =
      .ok ((List.range a.repetitions).map G) :=
    run_commands_rep_ok a F a.commands a.repetitions 1 G (fun j hj => by
      have := hG j hj
      simpa [Nat.add_comm 1 j] using this)
  refine ⟨?_, by simp, ?_⟩
  · simp [Analysis.run, Analysis.run_commands, hH, hrep]
  · intro i hi
    rw [List.getElem?_map, List.getElem?_range hi]
    rfl

/-- Witness for `analysis_run_repetition_order`: two repetitions over one
command, with a runner oracle whose output records the invocation index;
the report holds the two main batches in invocation order after the
hostinfo batch. -/
theorem analysis_run_repetition_order_witness :
    Analysis.run
      { hostinfos := [trueCmd], commands := [falseCmd],
        repetitions := 2, max_parallel_commands := 64 }
      (fun k _ _ => .ok [CommandResult.Success trueCmd k "out"])
      { hostname := "host", uname := "uname", date_time := 0, more := [] } =
      .ok { context := { hostname := "host", uname := "uname", date_time := 0, more := [] }
            hostinfo_results := [CommandResult.Success trueCmd 0 "out"]
            command_results := [[CommandResult.Success trueCmd 1 "out"],
                                [CommandResult.Success trueCmd 2 "out"]]
            repetitions := 2
            max_parallel_commands := 64 } := by
  have h := analysis_run_repetition_order
    { hostinfos := [trueCmd], commands := [falseCmd],
      repetitions := 2, max_parallel_commands := 64 }
    (fun k _ _ => .ok [CommandResult.Success trueCmd k "out"])
    { hostname := "host", uname := "uname", date_time := 0, more := [] }
    [CommandResult.Success trueCmd 0 "out"]
    (fun k => [CommandResult.Success trueCmd (k + 1) "out"])
    rfl (fun k _ => rfl)
  exact h.1
